import Mathlib

/-!
Shallow embedding of pyIATI's core Ruleset/Rule engine
(src/iati/core/rulesets.py) and of the Version number validation
(src/iati/versions.py), together with theorems settling the frozen claims
about the repository's natural-language specification.

Machine-level conventions: Python exceptions become an explicit error type
threaded through `Except`; JSON documents are modelled as the value trees the
parser hands to `object_pairs_hook` (objects are ordered pair lists that may
still contain duplicate keys); XML document trees are element trees supporting
the `findall`/`find` path queries the rules use.
-/

namespace PyIati

/-- Python exception kinds arising in the embedded code paths. -/
inductive PyErr where
  | typeError
  | valueError
  | keyError
  | indexError
  | attributeError
  | duplicateKeyError
deriving DecidableEq, Repr

/-- A JSON document as seen by Python's `json.loads` `object_pairs_hook`
machinery: objects are ordered key/value pair lists that may still contain
duplicate keys (the hook decides what to do with them). -/
inductive RawJson where
  | null
  | jbool (b : Bool)
  | num (n : Int)
  | str (s : String)
  | arr (items : List RawJson)
  | obj (pairs : List (String × RawJson))

/-- First-occurrence lookup of a key among an object's pairs (Python dict
access; keys are unique once the duplicate check has passed). -/
def objLookup (pairs : List (String × RawJson)) (key : String) : Option RawJson :=
  match pairs with
  | [] => none
  | (k, v) :: tl => if k == key then some v else objLookup tl key

/-- The key list of an object's pairs, in order. -/
def objKeys (pairs : List (String × RawJson)) : List String :=
  pairs.map (fun kv => kv.1)

/-- Whether a key list contains two equal names. -/
def dupNames : List String → Bool
  | [] => false
  | k :: tl => tl.contains k || dupNames tl

/-- Modelled from the spec: `iati.core.utilities.dict_raise_on_duplicates` is
invoked by `Ruleset.__init__` (rulesets.py line 76) as the `json.loads`
`object_pairs_hook`, but the function itself is absent from
src/iati/core/utilities.py. Per spec sections 4.4 and 9 it builds each JSON
object from its key/value pairs and raises a DuplicateKeyError on the first
duplicate key observed at any nesting level. -/
def dict_raise_on_duplicates (pairs : List (String × RawJson)) : Except PyErr RawJson :=
  if dupNames (objKeys pairs) then .error .duplicateKeyError else .ok (.obj pairs)

mutual
/-- `json.loads(ruleset_str, object_pairs_hook=dict_raise_on_duplicates)`
(rulesets.py line 76): the parser rebuilds every value bottom-up, invoking the
hook on each object's pair list as it is completed. -/
def json_loads : RawJson → Except PyErr RawJson
  | .null => .ok .null
  | .jbool b => .ok (.jbool b)
  | .num n => .ok (.num n)
  | .str s => .ok (.str s)
  | .arr items => do .ok (.arr (← loadsList items))
  | .obj pairs => do dict_raise_on_duplicates (← loadsPairs pairs)
/-- Element-wise processing of a JSON array during parsing. -/
def loadsList : List RawJson → Except PyErr (List RawJson)
  | [] => .ok []
  | x :: xs => do .ok ((← json_loads x) :: (← loadsList xs))
/-- Member-wise processing of a JSON object's pair list during parsing. -/
def loadsPairs : List (String × RawJson) → Except PyErr (List (String × RawJson))
  | [] => .ok []
  | (k, v) :: tl => do .ok ((k, ← json_loads v) :: (← loadsPairs tl))
end

mutual
/-- Whether some JSON object anywhere in the document has two keys with the
same name at the same nesting level. -/
def jsonHasDupKey : RawJson → Bool
  | .null | .jbool _ | .num _ | .str _ => false
  | .arr items => listHasDupKey items
  | .obj pairs => dupNames (objKeys pairs) || pairsHasDupKey pairs
/-- Duplicate-key search inside an array's elements. -/
def listHasDupKey : List RawJson → Bool
  | [] => false
  | x :: xs => jsonHasDupKey x || listHasDupKey xs
/-- Duplicate-key search inside an object's member values. -/
def pairsHasDupKey : List (String × RawJson) → Bool
  | [] => false
  | (_, v) :: tl => jsonHasDupKey v || pairsHasDupKey tl
end

/-! ### Version numbers (src/iati/versions.py) -/

/-- Python values that may be passed to `Version(...)`: a string, or one of the
non-string shapes the spec lists (numbers, lists, None). -/
inductive PyVal where
  | pstr (s : String)
  | pint (n : Int)
  | plist (xs : List String)
  | pnone
deriving DecidableEq, Repr

/-- Inclusive character-range test. -/
def charBetween (lo hi c : Char) : Bool :=
  decide (lo ≤ c) && decide (c ≤ hi)

/-- The integer-part alternative of the IATIver pattern, i.e.
the fragment reading as: open group, digit one followed by one or more digits,
or, a digit two to nine followed by optionally more digits, close group. -/
def intPartOk : List Char → Bool
  | [] => false
  | c :: rest =>
    if c == '1' then !rest.isEmpty && rest.all Char.isDigit
    else charBetween '2' '9' c && rest.all Char.isDigit

/-- The decimal-part fragment of the IATIver pattern: a zero, then a digit one
to nine, then optionally more digits. -/
def fracPartOk : List Char → Bool
  | '0' :: c :: rest => charBetween '1' '9' c && rest.all Char.isDigit
  | _ => false

/-- The IATIver regular expression of versions.py line 23, read strictly
anchored at both ends: either the literal one dot zero followed by a nonzero
digit, or an integer part per `intPartOk`, a dot, and a decimal part per
`fracPartOk`. The integer part can contain no dot, so the split at the first
dot is exact. -/
def iativer_core (s : String) : Bool :=
  let cs := s.toList
  let intp := cs.takeWhile (fun c => c != '.')
  let rest := cs.dropWhile (fun c => c != '.')
  match rest with
  | '.' :: frac =>
    (intp == ['1'] &&
      (match frac with
       | ['0', d] => charBetween '1' '9' d
       | _ => false))
    || (intPartOk intp && fracPartOk frac)
  | _ => false

/-- Python `re.match` of the anchored IATIver pattern (versions.py line 25):
the dollar assertion also matches just before a single newline at the very end
of the string, so a strict match followed by one trailing newline is accepted
as well. -/
def iativer_match (s : String) : Bool :=
  iativer_core s ||
    (match s.toList.getLast? with
     | some c => c == '\n' && iativer_core (String.mk s.toList.dropLast)
     | none => false)

/-- Follows the spec's words (section 3): acceptance by the version grammar
anchored at both ends, with nothing before or after the pattern itself. Kept
separate from `iativer_match` so the code's acceptance can be compared against
the spec's anchored-grammar reading. -/
def spec_anchored_grammar (s : String) : Bool := iativer_core s

/-- The attribute dictionary of a constructed Version instance.
`Version.__init__` (versions.py lines 8 to 26) assigns no instance attributes,
so a successfully constructed object carries an empty attribute list. -/
structure VersionObj where
  attrs : List (String × String)
deriving DecidableEq, Repr

/-- `Version.__init__` (versions.py lines 8 to 26): non-strings are rejected
with a TypeError; strings failing the pattern are rejected with a ValueError;
otherwise the object is produced, with nothing stored on it. -/
def version_init (v : PyVal) : Except PyErr VersionObj :=
  match v with
  | .pstr s => if iativer_match s then .ok ⟨[]⟩ else .error .valueError
  | _ => .error .typeError

/-! ### Rulesets and Rules (src/iati/core/rulesets.py) -/

/-- The recognized rule-type names, rulesets.py line 20. The constructor
registry of lines 39 to 49 has exactly the same key set. -/
def VALID_RULE_TYPES : List String :=
  ["no_more_than_one", "atleast_one", "dependent", "sum", "date_order",
   "regex_matches", "regex_no_matches", "startswith", "unique"]

/-- `locate_constructor_for_rule_type` (rulesets.py lines 23 to 51): dictionary
lookup of the Rule subclass for a rule-type name; a KeyError escapes for any
name outside the registry. The selected class is represented by its rule-type
name, which is what the dispatched construction depends on. -/
def locate_constructor_for_rule_type (rule_type : String) : Except PyErr String :=
  if VALID_RULE_TYPES.contains rule_type then .ok rule_type else .error .keyError

/-- Whether a JSON value is a string. -/
def isStrVal : RawJson → Bool
  | .str _ => true
  | _ => false

/-- Whether a JSON value is an array whose entries are all strings. -/
def isStrArr : RawJson → Bool
  | .arr xs => xs.all isStrVal
  | _ => false

/-- Whether an optional member is an array of strings. -/
def strArrOk : Option RawJson → Bool
  | some (.arr xs) => xs.all isStrVal
  | _ => false

/-- Whether an optional member is a nonempty array. -/
def strArrNonempty : Option RawJson → Bool
  | some (.arr xs) => !xs.isEmpty
  | _ => false

/-- Whether an optional member is a string. -/
def strValOk : Option RawJson → Bool
  | some (.str _) => true
  | _ => false

/-- Whether an optional member is a number. -/
def numValOk : Option RawJson → Bool
  | some (.num _) => true
  | _ => false

/-- Whether a JSON value is an object. -/
def isObj : RawJson → Bool
  | .obj _ => true
  | _ => false

/-- Modelled from the spec: the Ruleset meta-schema returned by
`iati.core.default.ruleset_schema()` (consulted by `Rule._valid_rule_configuration`,
rulesets.py lines 141 to 149) is a packaged resource absent from src. Per spec
sections 3 and 4.2, a case passes the jsonschema validation of its rule type's
subsection when it is an object carrying every declared property other than
`condition`: a `paths` array of strings for every type (nonempty for the two
cardinality types, whose semantics read the first entry), plus `regex` (string)
for the regex types, `start` (string) for startswith, and `sum` (number) for
sum. Extra members such as `condition` are permitted. -/
def caseValidFor (name : String) (case : RawJson) : Bool :=
  match case with
  | .obj ps =>
    if name == "no_more_than_one" || name == "atleast_one" then
      strArrOk (objLookup ps "paths") && strArrNonempty (objLookup ps "paths")
    else if name == "dependent" || name == "date_order" || name == "unique" then
      strArrOk (objLookup ps "paths")
    else if name == "regex_matches" || name == "regex_no_matches" then
      strArrOk (objLookup ps "paths") && strValOk (objLookup ps "regex")
    else if name == "startswith" then
      strArrOk (objLookup ps "paths") && strValOk (objLookup ps "start")
    else if name == "sum" then
      strArrOk (objLookup ps "paths") && numValOk (objLookup ps "sum")
    else false
  | _ => false

/-- A constructed Rule instance: its Python object identity, the rule-type
name set by the subclass `__init__`, and the `xpath_base` and `case` stored by
`Rule.__init__` (rulesets.py lines 111 to 125). -/
structure RuleObj where
  oid : Nat
  name : String
  xpath_base : String
  case : RawJson

/-- Default object equality for Rule instances: rulesets.py defines neither
`__eq__` nor `__hash__` on `Rule` or any subclass, so CPython compares and
hashes them by object identity. -/
def pyRuleEq (a b : RuleObj) : Bool := a.oid == b.oid

/-- `set.add` on the `rules` set (rulesets.py line 96) under the identity
equality of `pyRuleEq`: the element is kept out only when an identical object
is already present. -/
def pySetAdd (s : List RuleObj) (r : RuleObj) : List RuleObj :=
  if s.any (fun x => pyRuleEq x r) then s else s ++ [r]

/-- `Rule.__init__` for the subclass named `name` (rulesets.py lines 111 to
125 plus the subclass initialisers): stores the case and xpath_base, then
validates the case via `_valid_rule_configuration`. A name outside the
registry cannot reach its meta-schema subsection (spec section 4.2 calls this
an AttributeError-equivalent programmer error); an invalid case raises
ValueError (rulesets.py lines 146 to 149). The fresh object identity `oid` is
supplied by the caller. -/
def rule_init (oid : Nat) (name xpath_base : String) (case : RawJson) : Except PyErr RuleObj :=
  if !VALID_RULE_TYPES.contains name then .error .attributeError
  else if caseValidFor name case then .ok ⟨oid, name, xpath_base, case⟩
  else .error .valueError

/-- The `cases['cases']` access of rulesets.py line 93, with Python's errors:
KeyError when the member is missing, TypeError when the rule-type entry is not
an object or the member is not a list to iterate. -/
def getCasesList (v : RawJson) : Except PyErr (List RawJson) :=
  match v with
  | .obj ps =>
    match objLookup ps "cases" with
    | some (.arr cs) => .ok cs
    | some _ => .error .typeError
    | none => .error .keyError
  | _ => .error .typeError

/-- The innermost loop of `Ruleset.set_rules` (rulesets.py lines 93 to 96):
for each case, locate the constructor for the rule type, construct the Rule,
and add it to the rules set. The state is the next fresh object identity
paired with the rules accumulated so far. -/
def cases_loop (xpath_base rule_type : String) :
    List RawJson → Nat × List RuleObj → Except PyErr (Nat × List RuleObj)
  | [], st => .ok st
  | case :: rest, st => do
    let ctor ← locate_constructor_for_rule_type rule_type
    let r ← rule_init st.1 ctor xpath_base case
    cases_loop xpath_base rule_type rest (st.1 + 1, pySetAdd st.2 r)

/-- The middle loop of `Ruleset.set_rules` (rulesets.py line 92): iterate the
rule-type entries of one xpath_base section. -/
def rtypes_loop (xpath_base : String) :
    List (String × RawJson) → Nat × List RuleObj → Except PyErr (Nat × List RuleObj)
  | [], st => .ok st
  | (rule_type, v) :: rest, st => do
    let cs ← getCasesList v
    let st' ← cases_loop xpath_base rule_type cs st
    rtypes_loop xpath_base rest st'

/-- The outer loop of `Ruleset.set_rules` (rulesets.py line 91): iterate the
xpath_base sections; a section value without `.items()` is an AttributeError. -/
def xb_loop : List (String × RawJson) → Nat × List RuleObj → Except PyErr (Nat × List RuleObj)
  | [], st => .ok st
  | (xpath_base, rv) :: rest, st =>
    match rv with
    | .obj rps => do
      let st' ← rtypes_loop xpath_base rps st
      xb_loop rest st'
    | _ => .error .attributeError

/-- `Ruleset.set_rules` (rulesets.py lines 88 to 98) over the parsed ruleset. -/
def set_rules (parsed : RawJson) : Except PyErr (List RuleObj) :=
  match parsed with
  | .obj ps => (xb_loop ps (0, [])).map (fun st => st.2)
  | _ => .error .attributeError

/-- Whether one rule-type entry has the shape the meta-schema demands of it:
an object with a `cases` member holding an array of objects. -/
def rtypeEntryOk (v : RawJson) : Bool :=
  match v with
  | .obj ps =>
    match objLookup ps "cases" with
    | some (.arr cs) => cs.all isObj
    | _ => false
  | _ => false

/-- Structural validity of one xpath_base section's entries. -/
def sectionStructOk (rps : List (String × RawJson)) : Bool :=
  rps.all (fun kv2 => rtypeEntryOk kv2.2)

/-- Structural validity of one xpath_base section value. -/
def sectionValStructOk (v : RawJson) : Bool :=
  match v with
  | .obj rps => sectionStructOk rps
  | _ => false

/-- Structural validity of a parsed ruleset document. -/
def rulesetStructOk (parsed : RawJson) : Bool :=
  match parsed with
  | .obj ps => ps.all (fun kv => sectionValStructOk kv.2)
  | _ => false

/-- Modelled from the spec: `Ruleset.validate_ruleset` (rulesets.py lines 81
to 86) validates the parsed document against the packaged Ruleset meta-schema,
which is absent from src, and normalizes any jsonschema failure to ValueError.
Per spec section 6 the meta-schema accepts a JSON object mapping xpath_base
strings to objects mapping rule-type names to objects with a `cases` array of
case objects; unrecognized rule-type names are not rejected here (per spec
section 4.4 they surface later as a KeyError-equivalent). -/
def validate_ruleset (parsed : RawJson) : Except PyErr Unit :=
  if rulesetStructOk parsed then .ok () else .error .valueError

/-- A constructed Ruleset: the parsed definition and the rules set
(`Ruleset.__init__`, rulesets.py lines 62 to 79). -/
structure Ruleset where
  ruleset : RawJson
  rules : List RuleObj

/-- `Ruleset.__init__` (rulesets.py lines 62 to 79): parse with the
duplicate-key-rejecting hook, validate against the meta-schema, then build the
rules set. Any error leaves no constructed object behind. -/
def ruleset_init (raw : RawJson) : Except PyErr Ruleset := do
  let parsed ← json_loads raw
  let _ ← validate_ruleset parsed
  let rules ← set_rules parsed
  .ok ⟨parsed, rules⟩

/-- Number of case entries of one rule-type entry. -/
def entryCount (v : RawJson) : Nat :=
  match getCasesList v with
  | .ok cs => cs.length
  | .error _ => 0

/-- Number of case entries of one xpath_base section. -/
def sectionCount (rps : List (String × RawJson)) : Nat :=
  (rps.map (fun kv2 => entryCount kv2.2)).sum

/-- Number of case entries of one xpath_base section value. -/
def sectionValCount (v : RawJson) : Nat :=
  match v with
  | .obj rps => sectionCount rps
  | _ => 0

/-- Total number of case entries across a parsed ruleset's sections. -/
def countCases (parsed : RawJson) : Nat :=
  match parsed with
  | .obj ps => (ps.map (fun kv => sectionValCount kv.2)).sum
  | _ => 0

/-- Whether one rule-type entry dooms construction: its name is unrecognized
and it has at least one case to construct, so `locate_constructor_for_rule_type`
is reached and raises KeyError. -/
def entryHasUnknownCase (rt : String) (v : RawJson) : Bool :=
  !(VALID_RULE_TYPES.contains rt) &&
    (match getCasesList v with
     | .ok (_ :: _) => true
     | _ => false)

/-- Whether a recognized rule-type entry carries only valid cases; entries
with unrecognized names are not constrained here. -/
def entryKnownValid (rt : String) (v : RawJson) : Bool :=
  !(VALID_RULE_TYPES.contains rt) ||
    (match getCasesList v with
     | .ok cs => cs.all (caseValidFor rt)
     | .error _ => false)

/-- Whether some entry of one section dooms construction. -/
def sectionHasUnknown (rps : List (String × RawJson)) : Bool :=
  rps.any (fun kv2 => entryHasUnknownCase kv2.1 kv2.2)

/-- Whether every recognized entry of one section carries only valid cases. -/
def sectionKnownValid (rps : List (String × RawJson)) : Bool :=
  rps.all (fun kv2 => entryKnownValid kv2.1 kv2.2)

/-- Section-value form of `sectionHasUnknown`. -/
def sectionValHasUnknown (v : RawJson) : Bool :=
  match v with
  | .obj rps => sectionHasUnknown rps
  | _ => false

/-- Section-value form of `sectionKnownValid`. -/
def sectionValKnownValid (v : RawJson) : Bool :=
  match v with
  | .obj rps => sectionKnownValid rps
  | _ => true

/-- Whether a parsed ruleset contains an unrecognized rule-type name with at
least one case to construct. -/
def hasUnknownRuleType (parsed : RawJson) : Bool :=
  match parsed with
  | .obj ps => ps.any (fun kv => sectionValHasUnknown kv.2)
  | _ => false

/-- Whether every recognized rule-type entry of a parsed ruleset carries only
valid cases. -/
def knownCasesValid (parsed : RawJson) : Bool :=
  match parsed with
  | .obj ps => ps.all (fun kv => sectionValKnownValid kv.2)
  | _ => true

/-! ### XML document trees and rule evaluation -/

/-- An XML element tree as consumed by `is_valid_for`: a tag, optional text
content, and child elements in document order. -/
inductive XTree where
  | mk (tag : String) (text : Option String) (children : List XTree)

/-- Tag of an element. -/
def XTree.tag : XTree → String
  | .mk t _ _ => t

/-- Text content of an element; None when the element has no text. -/
def XTree.text : XTree → Option String
  | .mk _ x _ => x

/-- Child elements in document order. -/
def XTree.children : XTree → List XTree
  | .mk _ _ c => c

/-- Children of one element carrying the given tag, in document order. -/
def childMatches (s : String) (t : XTree) : List XTree :=
  (t.children).filter (fun c => c.tag == s)

/-- ElementTree path resolution over successive tag segments: each segment
steps from the current element list to their matching children, preserving
document order. -/
def findallSegs (ts : List XTree) : List String → List XTree
  | [] => ts
  | s :: rest => findallSegs (ts.foldr (fun t acc => childMatches s t ++ acc) []) rest

/-- Split a character list at every occurrence of the separator, keeping
empty segments, as slash-splitting an XPath string does. -/
def splitSegs (sep : Char) : List Char → List (List Char)
  | [] => [[]]
  | ch :: rest =>
    match splitSegs sep rest with
    | [] => []
    | seg :: segs => if ch == sep then [] :: seg :: segs else (ch :: seg) :: segs

/-- The tag segments of a slash-separated path string. -/
def pathSegs (path : String) : List String :=
  (splitSegs '/' path.toList).map String.mk

/-- `dataset_tree.findall(path)` for the slash-separated tag paths the rules
build: all matching elements in document order. -/
def etree_findall (t : XTree) (path : String) : List XTree :=
  findallSegs [t] (pathSegs path)

/-- `dataset_tree.find(path)`: the first matching element, when any. -/
def etree_find (t : XTree) (path : String) : Option XTree :=
  (etree_findall t path).head?

/-- `Rule._extract_xpath_case` (rulesets.py lines 169 to 172): plain string
join of the base and the relative path with a single separator. -/
def extract_xpath_case (xpath_base path : String) : String :=
  xpath_base ++ "/" ++ path

/-- What a Python `is_valid_for` call can hand back when it returns at all: a
boolean, or None when the function body falls through without returning. -/
inductive PyRet where
  | bool (b : Bool)
  | none
deriving DecidableEq, Repr

/-- Element-wise extraction of a list of strings from JSON array entries;
a non-string entry surfaces as the TypeError Python raises when such an entry
reaches the XPath machinery. -/
def strListE : List RawJson → Except PyErr (List String)
  | [] => .ok []
  | .str s :: rest => (strListE rest).map (fun l => s :: l)
  | _ :: _ => .error .typeError

/-- The `self.case['paths']` access of the evaluation methods: KeyError when
missing, TypeError when not an array of strings. -/
def caseGetPaths (case : RawJson) : Except PyErr (List String) :=
  match case with
  | .obj ps =>
    match objLookup ps "paths" with
    | some (.arr xs) => strListE xs
    | some _ => .error .typeError
    | none => .error .keyError
  | _ => .error .typeError

/-- The `self.case['regex']` access of `RuleRegexMatches.is_valid_for`. -/
def caseGetStr (case : RawJson) (key : String) : Except PyErr String :=
  match case with
  | .obj ps =>
    match objLookup ps key with
    | some (.str s) => .ok s
    | some _ => .error .typeError
    | none => .error .keyError
  | _ => .error .typeError

/-- The loop body of `RuleRegexMatches.is_valid_for` (rulesets.py lines 284 to
287): walk the paths in order; the first path with any results returns the
match of its first result's text immediately (Python `pattern.match(None)`
raises TypeError when that element has no text); exhausting all paths falls
off the function, returning None. The compiled pattern is the abstract
matcher `re_match` applied to the rule's regex string. -/
def regex_loop (re_match : String → String → Bool) (regex xpath_base : String)
    (tree : XTree) : List String → Except PyErr PyRet
  | [] => .ok .none
  | p :: rest =>
    match etree_findall tree (extract_xpath_case xpath_base p) with
    | [] => regex_loop re_match regex xpath_base tree rest
    | r :: _ =>
      match r.text with
      | some t => .ok (.bool (re_match regex t))
      | Option.none => .error .typeError

/-- The element `firstResult` inspects: the first result of the first path
with any results, in the traversal order of rulesets.py lines 284 to 286. -/
def firstResult (xpath_base : String) (tree : XTree) : List String → Option XTree
  | [] => Option.none
  | p :: rest =>
    match etree_findall tree (extract_xpath_case xpath_base p) with
    | [] => firstResult xpath_base tree rest
    | r :: _ => some r

/-- The call `rule.is_valid_for(dataset_tree)` for a constructed rule, per the
subclass bodies in rulesets.py: `no_more_than_one` (lines 191 to 202) counts
matches of the first path; `atleast_one` (lines 221 to 232) tests `find` for a
match of the first path; `regex_matches` (lines 279 to 287) runs `regex_loop`;
`regex_no_matches` (lines 304 to 314) is stubbed to True;
`date_order` and `dependent` define no `is_valid_for`, so the call raises
AttributeError; `startswith`, `sum` and `unique` (lines 331 to 333, 350 to
352, 369 to 371) declare `is_valid_for(self)` without a tree parameter, so
passing the tree raises TypeError. `re_match` abstracts the `re` engine:
pattern string and text in, match success out. -/
def ruleCallIsValidFor (re_match : String → String → Bool) (r : RuleObj)
    (tree : XTree) : Except PyErr PyRet :=
  if r.name == "no_more_than_one" then do
    match (← caseGetPaths r.case) with
    | [] => .error .indexError
    | p :: _ =>
      .ok (.bool (decide ((etree_findall tree (extract_xpath_case r.xpath_base p)).length ≤ 1)))
  else if r.name == "atleast_one" then do
    match (← caseGetPaths r.case) with
    | [] => .error .indexError
    | p :: _ =>
      .ok (.bool (etree_find tree (extract_xpath_case r.xpath_base p)).isSome)
  else if r.name == "regex_matches" then do
    let paths ← caseGetPaths r.case
    let regex ← caseGetStr r.case "regex"
    regex_loop re_match regex r.xpath_base tree paths
  else if r.name == "regex_no_matches" then .ok (.bool true)
  else if r.name == "date_order" || r.name == "dependent" then .error .attributeError
  else if r.name == "startswith" || r.name == "sum" || r.name == "unique" then
    .error .typeError
  else .error .attributeError

/-! ### Meta-schema subsection lookup (rulesets.py lines 151 to 167) -/

/-- Python `d[k]` subscripting: KeyError when the key is absent from an
object, TypeError when the value is not subscriptable by a string key. -/
def pyGetItem (j : RawJson) (k : String) : Except PyErr RawJson :=
  match j with
  | .obj ps =>
    match objLookup ps k with
    | some v => .ok v
    | Option.none => .error .keyError
  | _ => .error .typeError

/-- Python `d[k] = v` on an object's pair list: replace the first binding of
the key in place, else append a new binding. -/
def objSetPairs (pairs : List (String × RawJson)) (k : String) (v : RawJson) :
    List (String × RawJson) :=
  match pairs with
  | [] => [(k, v)]
  | (k', v') :: tl => if k' == k then (k', v) :: tl else (k', v') :: objSetPairs tl k v

/-- Python `d[k] = v` lifted to a JSON value known to be an object. -/
def objSetItem (j : RawJson) (k : String) (v : RawJson) : RawJson :=
  match j with
  | .obj ps => .obj (objSetPairs ps k v)
  | other => other

/-- The subscript chain of rulesets.py line 164 down to the case `items`
subsection for the rule type `name`, over an arbitrary meta-schema document. -/
def schemaItemsSection (schema : RawJson) (name : String) : Except PyErr RawJson := do
  let a ← pyGetItem schema "patternProperties"
  let b ← pyGetItem a ".+"
  let c ← pyGetItem b "properties"
  let d ← pyGetItem c name
  let e ← pyGetItem d "properties"
  let f ← pyGetItem e "cases"
  pyGetItem f "items"

/-- `Rule._ruleset_schema_section` (rulesets.py lines 151 to 167) with the
meta-schema document as an explicit input: locate the case subsection for the
rule type, then set its `required` member to every key of its `properties`
other than `condition` (line 165); `.keys()` on a non-object raises
AttributeError. -/
def ruleset_schema_section (schema : RawJson) (name : String) : Except PyErr RawJson := do
  let g ← schemaItemsSection schema name
  match (← pyGetItem g "properties") with
  | .obj pp =>
    .ok (objSetItem g "required"
      (.arr (((objKeys pp).filter (fun k => k != "condition")).map RawJson.str)))
  | _ => .error .attributeError

/-! ### Claims C7 and C8: Version construction -/

/-- C7 counterexample: the claim says Version construction fails on every
string not matching the anchored grammar, yet the string consisting of a valid
version number followed by one newline does not match the anchored grammar and
still constructs successfully, because Python's dollar assertion also matches
just before a trailing newline. -/
theorem C7_counterexample :
    spec_anchored_grammar "2.02\n" = false ∧
    version_init (.pstr "2.02\n") = .ok ⟨[]⟩ :=
  ⟨rfl, rfl⟩

/-- C7 (amended): Version construction succeeds exactly on the strings
accepted by Python's `re.match` of the anchored pattern, namely the strings
matching the grammar plus any grammar-matching string followed by a single
trailing newline; every other string fails with ValueError, the listed
examples among them, and every non-string input fails with TypeError. -/
theorem C7_version_acceptance_amended :
    (∀ s : String, version_init (.pstr s) =
      (if iativer_match s then .ok ⟨[]⟩ else .error .valueError))
    ∧ (∀ s : String, spec_anchored_grammar s = true → version_init (.pstr s) = .ok ⟨[]⟩)
    ∧ version_init (.pstr "2.02\n") = .ok ⟨[]⟩
    ∧ version_init (.pstr "2.0") = .error .valueError
    ∧ version_init (.pstr "1.1") = .error .valueError
    ∧ version_init (.pstr "abc") = .error .valueError
    ∧ version_init (.pstr "") = .error .valueError
    ∧ (∀ n : Int, version_init (.pint n) = .error .typeError)
    ∧ (∀ xs : List String, version_init (.plist xs) = .error .typeError)
    ∧ version_init .pnone = .error .typeError := by
  refine ⟨fun s => rfl, fun s h => ?_, rfl, rfl, rfl, rfl, rfl, fun n => rfl, fun xs => rfl, rfl⟩
  have hm : iativer_match s = true := by
    unfold iativer_match
    rw [show iativer_core s = true from h]
    simp
  simp [version_init, hm]

/-- C7 amended witness: the amended theorem applied at concrete inputs. -/
theorem C7_version_acceptance_amended_witness :
    version_init (.pstr "1.04") = .ok ⟨[]⟩ ∧
    version_init (.pstr "2.0") = .error .valueError :=
  ⟨C7_version_acceptance_amended.2.1 "1.04" rfl,
   C7_version_acceptance_amended.2.2.2.1⟩

/-- C8 counterexample: constructing a Version from the valid string does
succeed, but the constructed object carries no attributes at all, so the
matched string is not retained as a canonical form or in any other way. -/
theorem C8_counterexample :
    version_init (.pstr "2.02") = .ok ⟨[]⟩ ∧
    (VersionObj.mk []).attrs.length = 0 :=
  ⟨rfl, rfl⟩

/-- C8 (amended): for every string matching the grammar, Version construction
succeeds and performs no normalization of any kind, but the matched string is
not retained: `Version.__init__` assigns no instance attributes, so the
constructed object stores nothing. -/
theorem C8_no_retention_amended (s : String) (h : spec_anchored_grammar s = true) :
    version_init (.pstr s) = .ok ⟨[]⟩ := by
  have hm : iativer_match s = true := by
    unfold iativer_match
    rw [show iativer_core s = true from h]
    simp
  simp [version_init, hm]

/-- C8 amended witness: the amended theorem applied at a concrete input. -/
theorem C8_no_retention_amended_witness :
    version_init (.pstr "1.01") = .ok ⟨[]⟩ :=
  C8_no_retention_amended "1.01" rfl

/-! ### Evaluation lemmas shared by the rule-evaluation claims -/

/-- Unfolding of a `no_more_than_one` evaluation when the paths extraction
succeeds with a nonempty list. -/
theorem nmto_eval (m : String → String → Bool) (oid : Nat) (xb p : String)
    (rest : List String) (case : RawJson) (tree : XTree)
    (h : caseGetPaths case = .ok (p :: rest)) :
    ruleCallIsValidFor m ⟨oid, "no_more_than_one", xb, case⟩ tree =
      .ok (.bool (decide ((etree_findall tree (extract_xpath_case xb p)).length ≤ 1))) := by
  simp [ruleCallIsValidFor, h]
  rfl

/-- Unfolding of an `atleast_one` evaluation when the paths extraction
succeeds with a nonempty list. -/
theorem alo_eval (m : String → String → Bool) (oid : Nat) (xb p : String)
    (rest : List String) (case : RawJson) (tree : XTree)
    (h : caseGetPaths case = .ok (p :: rest)) :
    ruleCallIsValidFor m ⟨oid, "atleast_one", xb, case⟩ tree =
      .ok (.bool (etree_find tree (extract_xpath_case xb p)).isSome) := by
  simp [ruleCallIsValidFor, h]
  rfl

/-- The head option of a list is present exactly when the length reaches one. -/
theorem head_isSome_eq (l : List XTree) : l.head?.isSome = decide (1 ≤ l.length) := by
  cases l <;> simp

/-- A failing paths extraction propagates out of the two cardinality
evaluations unchanged. -/
theorem cardinality_eval_err (m : String → String → Bool) (oid : Nat) (xb : String)
    (case : RawJson) (tree : XTree) (e : PyErr) (h : caseGetPaths case = .error e) :
    ruleCallIsValidFor m ⟨oid, "no_more_than_one", xb, case⟩ tree = .error e
    ∧ ruleCallIsValidFor m ⟨oid, "atleast_one", xb, case⟩ tree = .error e := by
  constructor <;> (simp [ruleCallIsValidFor, h]; rfl)

/-- An empty paths list sends both cardinality evaluations into the
IndexError of the subscript at position zero. -/
theorem cardinality_eval_nil (m : String → String → Bool) (oid : Nat) (xb : String)
    (case : RawJson) (tree : XTree) (h : caseGetPaths case = .ok []) :
    ruleCallIsValidFor m ⟨oid, "no_more_than_one", xb, case⟩ tree = .error .indexError
    ∧ ruleCallIsValidFor m ⟨oid, "atleast_one", xb, case⟩ tree = .error .indexError := by
  constructor <;> (simp [ruleCallIsValidFor, h]; rfl)

/-! ### Claim C5: the two cardinality rules -/

/-- C5: for every tree, a `no_more_than_one` rule holds exactly when at most
one node matches the base joined with the first path entry, an `atleast_one`
rule holds exactly when at least one such node exists, and both evaluations
coincide with the evaluations of a rule carrying only that first entry, so
any further path entries are ignored. -/
theorem C5_cardinality_first_path (m : String → String → Bool) (oid oid' : Nat)
    (xb p : String) (rest : List String) (case case1 : RawJson) (tree : XTree)
    (h : caseGetPaths case = .ok (p :: rest))
    (h1 : caseGetPaths case1 = .ok [p]) :
    (ruleCallIsValidFor m ⟨oid, "no_more_than_one", xb, case⟩ tree =
      .ok (.bool (decide ((etree_findall tree (extract_xpath_case xb p)).length ≤ 1))))
    ∧ (ruleCallIsValidFor m ⟨oid', "atleast_one", xb, case⟩ tree =
      .ok (.bool (decide (1 ≤ (etree_findall tree (extract_xpath_case xb p)).length))))
    ∧ ruleCallIsValidFor m ⟨oid, "no_more_than_one", xb, case⟩ tree =
        ruleCallIsValidFor m ⟨oid, "no_more_than_one", xb, case1⟩ tree
    ∧ ruleCallIsValidFor m ⟨oid', "atleast_one", xb, case⟩ tree =
        ruleCallIsValidFor m ⟨oid', "atleast_one", xb, case1⟩ tree := by
  refine ⟨nmto_eval m oid xb p rest case tree h, ?_, ?_, ?_⟩
  · rw [alo_eval m oid' xb p rest case tree h]
    rw [show etree_find tree (extract_xpath_case xb p) =
      (etree_findall tree (extract_xpath_case xb p)).head? from rfl]
    rw [head_isSome_eq]
  · rw [nmto_eval m oid xb p rest case tree h, nmto_eval m oid xb p [] case1 tree h1]
  · rw [alo_eval m oid' xb p rest case tree h, alo_eval m oid' xb p [] case1 tree h1]

/-- A case holding the paths sector and other, for the C5 witness. -/
def c5case : RawJson := .obj [("paths", .arr [.str "sector", .str "other"])]

/-- A case holding only the path sector, for the C5 witness. -/
def c5case1 : RawJson := .obj [("paths", .arr [.str "sector"])]

/-- A document with two sector nodes under the activity element. -/
def c5tree : XTree :=
  .mk "doc" Option.none
    [.mk "activity" Option.none
      [.mk "sector" Option.none [], .mk "sector" Option.none []]]

/-- C5 witness: the theorem applied at a tree with two matching sector nodes,
where `no_more_than_one` fails and `atleast_one` holds. -/
theorem C5_cardinality_first_path_witness :
    ruleCallIsValidFor (fun _ _ => true) ⟨0, "no_more_than_one", "activity", c5case⟩ c5tree
      = .ok (.bool false)
    ∧ ruleCallIsValidFor (fun _ _ => true) ⟨1, "atleast_one", "activity", c5case⟩ c5tree
      = .ok (.bool true) := by
  have h := C5_cardinality_first_path (fun _ _ => true) 0 1 "activity" "sector" ["other"]
    c5case c5case1 c5tree rfl rfl
  exact ⟨by rw [h.1]; rfl, by rw [h.2.1]; rfl⟩

/-! ### Claim C10: the two cardinality rules never both fail -/

/-- C10: for every tree and every shared case and base, the `no_more_than_one`
and `atleast_one` evaluations are never both false: zero matches satisfies
`no_more_than_one` and two or more matches satisfies `atleast_one`. -/
theorem C10_not_both_false (m : String → String → Bool) (o1 o2 : Nat) (xb : String)
    (case : RawJson) (tree : XTree) :
    ¬(ruleCallIsValidFor m ⟨o1, "no_more_than_one", xb, case⟩ tree = .ok (.bool false)
      ∧ ruleCallIsValidFor m ⟨o2, "atleast_one", xb, case⟩ tree = .ok (.bool false)) := by
  rintro ⟨h1, h2⟩
  cases hp : caseGetPaths case with
  | error e =>
    rw [(cardinality_eval_err m o1 xb case tree e hp).1] at h1
    exact absurd h1 (by simp)
  | ok paths =>
    cases paths with
    | nil =>
      rw [(cardinality_eval_nil m o1 xb case tree hp).1] at h1
      exact absurd h1 (by simp)
    | cons p rest =>
      rw [nmto_eval m o1 xb p rest case tree hp] at h1
      rw [alo_eval m o2 xb p rest case tree hp] at h2
      have hn : decide ((etree_findall tree (extract_xpath_case xb p)).length ≤ 1) = false :=
        PyRet.bool.inj (Except.ok.inj h1)
      have hz : (etree_find tree (extract_xpath_case xb p)).isSome = false :=
        PyRet.bool.inj (Except.ok.inj h2)
      rw [show etree_find tree (extract_xpath_case xb p) =
        (etree_findall tree (extract_xpath_case xb p)).head? from rfl] at hz
      rw [head_isSome_eq] at hz
      have hn' := of_decide_eq_false hn
      have hz' := of_decide_eq_false hz
      omega

/-- C10 witness: the theorem applied at a concrete rule pair and tree. -/
theorem C10_not_both_false_witness :
    ¬(ruleCallIsValidFor (fun _ _ => true) ⟨0, "no_more_than_one", "activity", c5case⟩ c5tree
        = .ok (.bool false)
      ∧ ruleCallIsValidFor (fun _ _ => true) ⟨1, "atleast_one", "activity", c5case⟩ c5tree
        = .ok (.bool false)) :=
  C10_not_both_false (fun _ _ => true) 0 1 "activity" c5case c5tree

/-! ### Claim C6: regex_matches short-circuits on the first matched node -/

/-- Unfolding of a `regex_matches` evaluation when both case extractions
succeed. -/
theorem regex_matches_eval (m : String → String → Bool) (oid : Nat)
    (xb regex : String) (case : RawJson) (tree : XTree) (paths : List String)
    (hp : caseGetPaths case = .ok paths) (hr : caseGetStr case "regex" = .ok regex) :
    ruleCallIsValidFor m ⟨oid, "regex_matches", xb, case⟩ tree =
      regex_loop m regex xb tree paths := by
  simp [ruleCallIsValidFor, hp, hr]
  rfl

/-- The regex loop is decided by the first result of the first path with any
results: its text is matched, or its missing text raises TypeError. -/
theorem regex_loop_first (m : String → String → Bool) (regex xb : String)
    (tree : XTree) :
    ∀ (paths : List String) (node : XTree),
      firstResult xb tree paths = some node →
      regex_loop m regex xb tree paths =
        (match node.text with
         | some t => .ok (.bool (m regex t))
         | Option.none => .error .typeError)
  | [], node, hf => by simp [firstResult] at hf
  | p :: rest, node, hf => by
    unfold firstResult at hf
    unfold regex_loop
    cases hres : etree_findall tree (extract_xpath_case xb p) with
    | nil =>
      rw [hres] at hf
      exact regex_loop_first m regex xb tree rest node hf
    | cons r rs =>
      rw [hres] at hf
      have : r = node := by
        have := hf
        simpa using this
      subst this
      rfl

/-- C6 (amended): whenever some node matches some path of a `regex_matches`
rule, evaluation is decided by the first matched node of the first path with
any results, in traversal order, without evaluating any further nodes or
paths; it returns the boolean regex match of that node's text when the node
has text, and raises TypeError when that node has no text. -/
theorem C6_regex_first_node_amended (m : String → String → Bool) (oid : Nat)
    (xb regex : String) (case : RawJson) (tree : XTree) (paths : List String)
    (node : XTree)
    (hp : caseGetPaths case = .ok paths)
    (hr : caseGetStr case "regex" = .ok regex)
    (hf : firstResult xb tree paths = some node) :
    (∀ t, node.text = some t →
      ruleCallIsValidFor m ⟨oid, "regex_matches", xb, case⟩ tree = .ok (.bool (m regex t)))
    ∧ (node.text = Option.none →
      ruleCallIsValidFor m ⟨oid, "regex_matches", xb, case⟩ tree = .error .typeError) := by
  have hloop := regex_loop_first m regex xb tree paths node hf
  have heval := regex_matches_eval m oid xb regex case tree paths hp hr
  constructor
  · intro t ht
    rw [heval, hloop, ht]
  · intro ht
    rw [heval, hloop, ht]

/-- A regex_matches case over the identifier path, for claim C6. -/
def c6case : RawJson :=
  .obj [("paths", .arr [.str "iati-identifier"]), ("regex", .str "[A-Z]+")]

/-- A document whose identifier element matches the rule's path but carries no
text content. -/
def c6tree : XTree :=
  .mk "doc" Option.none
    [.mk "act" Option.none [.mk "iati-identifier" Option.none []]]

/-- C6 counterexample: this tree has a node matching the rule's first path, so
the claim demands a boolean regex-match result, yet the constructed rule's
evaluation raises TypeError because the matched node has no text for the
pattern to match. -/
theorem C6_counterexample :
    rule_init 0 "regex_matches" "act" c6case = .ok ⟨0, "regex_matches", "act", c6case⟩
    ∧ firstResult "act" c6tree ["iati-identifier"] =
        some (.mk "iati-identifier" Option.none [])
    ∧ ruleCallIsValidFor (fun _ _ => true) ⟨0, "regex_matches", "act", c6case⟩ c6tree
        = .error .typeError :=
  ⟨rfl, rfl, rfl⟩

/-- A document whose first matched identifier node has text. -/
def c6tree2 : XTree :=
  .mk "doc" Option.none
    [.mk "act" Option.none
      [.mk "iati-identifier" (some "AA-123") [],
       .mk "iati-identifier" (some "zz") []]]

/-- C6 amended witness: the amended theorem applied at a tree whose first
matched node carries text, with a matcher accepting that text. -/
theorem C6_regex_first_node_amended_witness :
    ruleCallIsValidFor (fun _ t => t == "AA-123") ⟨0, "regex_matches", "act", c6case⟩ c6tree2
      = .ok (.bool true) := by
  have h := C6_regex_first_node_amended (fun _ t => t == "AA-123") 0 "act" "[A-Z]+"
    c6case c6tree2 ["iati-identifier"] (.mk "iati-identifier" (some "AA-123") []) rfl rfl rfl
  exact h.1 "AA-123" rfl

/-! ### Claim C3: what calling is_valid_for actually does per rule type -/

/-- An all-string JSON array extracts to a same-length string list. -/
theorem strListE_of_all_str (xs : List RawJson) (h : xs.all isStrVal = true) :
    ∃ l : List String, strListE xs = .ok l ∧ l.length = xs.length := by
  induction xs with
  | nil => exact ⟨[], rfl, rfl⟩
  | cons x tl ih =>
    have hx : isStrVal x = true := List.all_eq_true.mp h x (by simp)
    have htl : tl.all isStrVal = true := by
      apply List.all_eq_true.mpr
      intro y hy
      exact List.all_eq_true.mp h y (by simp [hy])
    obtain ⟨l, hl, hlen⟩ := ih htl
    cases x with
    | str s => exact ⟨s :: l, by simp [strListE, hl, Except.map], by simp [hlen]⟩
    | null => simp [isStrVal] at hx
    | jbool b => simp [isStrVal] at hx
    | num n => simp [isStrVal] at hx
    | arr a => simp [isStrVal] at hx
    | obj o => simp [isStrVal] at hx

/-- A case that passes the validation of the two cardinality types yields a
nonempty string path list. -/
theorem caseValid_paths_cons (name : String) (case : RawJson)
    (hname : name = "no_more_than_one" ∨ name = "atleast_one")
    (h : caseValidFor name case = true) :
    ∃ p rest, caseGetPaths case = .ok (p :: rest) := by
  cases case with
  | obj ps =>
    have h' : (strArrOk (objLookup ps "paths")
        && strArrNonempty (objLookup ps "paths")) = true := by
      rcases hname with hn | hn <;> (subst hn; simpa [caseValidFor] using h)
    rw [Bool.and_eq_true] at h'
    obtain ⟨hok, hne⟩ := h'
    cases hl : objLookup ps "paths" with
    | none => rw [hl] at hok; simp [strArrOk] at hok
    | some v =>
      rw [hl] at hok hne
      cases v with
      | arr xs =>
        have hall : xs.all isStrVal = true := by simpa [strArrOk] using hok
        have hxs : ¬xs.isEmpty := by simpa [strArrNonempty] using hne
        obtain ⟨l, hsl, hlen⟩ := strListE_of_all_str xs hall
        cases xs with
        | nil => simp at hxs
        | cons x xtl =>
          cases l with
          | nil => simp at hlen
          | cons p lrest =>
            exact ⟨p, lrest, by simp [caseGetPaths, hl, hsl]⟩
      | null => simp [strArrOk] at hok
      | jbool b => simp [strArrOk] at hok
      | num n => simp [strArrOk] at hok
      | str s => simp [strArrOk] at hok
      | obj o => simp [strArrOk] at hok
  | null => rcases hname with hn | hn <;> (subst hn; simp [caseValidFor] at h)
  | jbool b => rcases hname with hn | hn <;> (subst hn; simp [caseValidFor] at h)
  | num n => rcases hname with hn | hn <;> (subst hn; simp [caseValidFor] at h)
  | str s => rcases hname with hn | hn <;> (subst hn; simp [caseValidFor] at h)
  | arr a => rcases hname with hn | hn <;> (subst hn; simp [caseValidFor] at h)

/-- A case that passes regex_matches validation yields a string path list and
a regex string. -/
theorem caseValid_regex_fields (case : RawJson)
    (h : caseValidFor "regex_matches" case = true) :
    (∃ l, caseGetPaths case = .ok l) ∧ (∃ r, caseGetStr case "regex" = .ok r) := by
  cases case with
  | obj ps =>
    have h' : (strArrOk (objLookup ps "paths")
        && strValOk (objLookup ps "regex")) = true := by simpa [caseValidFor] using h
    rw [Bool.and_eq_true] at h'
    obtain ⟨hok, hrv⟩ := h'
    constructor
    · cases hl : objLookup ps "paths" with
      | none => rw [hl] at hok; simp [strArrOk] at hok
      | some v =>
        rw [hl] at hok
        cases v with
        | arr xs =>
          have hall : xs.all isStrVal = true := by simpa [strArrOk] using hok
          obtain ⟨l, hsl, _⟩ := strListE_of_all_str xs hall
          exact ⟨l, by simp [caseGetPaths, hl, hsl]⟩
        | null => simp [strArrOk] at hok
        | jbool b => simp [strArrOk] at hok
        | num n => simp [strArrOk] at hok
        | str s => simp [strArrOk] at hok
        | obj o => simp [strArrOk] at hok
    · cases hr : objLookup ps "regex" with
      | none => rw [hr] at hrv; simp [strValOk] at hrv
      | some w =>
        rw [hr] at hrv
        cases w with
        | str r => exact ⟨r, by simp [caseGetStr, hr]⟩
        | null => simp [strValOk] at hrv
        | jbool b => simp [strValOk] at hrv
        | num n => simp [strValOk] at hrv
        | arr a => simp [strValOk] at hrv
        | obj o => simp [strValOk] at hrv
  | null => simp [caseValidFor] at h
  | jbool b => simp [caseValidFor] at h
  | num n => simp [caseValidFor] at h
  | str s => simp [caseValidFor] at h
  | arr a => simp [caseValidFor] at h

/-- The regex loop can only return a value or raise the missing-text
TypeError. -/
theorem regex_loop_ok_or_typeError (m : String → String → Bool) (regex xb : String)
    (tree : XTree) :
    ∀ paths : List String,
      regex_loop m regex xb tree paths = .error .typeError
      ∨ ∃ out, regex_loop m regex xb tree paths = .ok out
  | [] => .inr ⟨.none, rfl⟩
  | p :: rest => by
    cases hres : etree_findall tree (extract_xpath_case xb p) with
    | nil =>
      rcases regex_loop_ok_or_typeError m regex xb tree rest with hrec | ⟨out, hrec⟩
      · exact .inl (by rw [regex_loop, hres]; exact hrec)
      · exact .inr ⟨out, by rw [regex_loop, hres]; exact hrec⟩
    | cons r rs =>
      cases ht : r.text with
      | none => exact .inl (by simp [regex_loop, hres, ht])
      | some t => exact .inr ⟨.bool (m regex t), by simp [regex_loop, hres, ht]⟩

/-- C3 (amended): for a case accepted by the configuration validation of the
types involved, and for every document tree: the two cardinality rules and
the stubbed regex_no_matches rule return booleans without raising;
regex_matches returns a value or raises TypeError on a text-less first match;
date_order and dependent rules raise AttributeError because no is_valid_for
method exists on them; startswith, sum and unique rules construct successfully
yet raise TypeError because their is_valid_for accepts no tree argument. -/
theorem C3_is_valid_for_amended (m : String → String → Bool) (oid : Nat)
    (xb : String) (case : RawJson) (tree : XTree)
    (h1 : caseValidFor "no_more_than_one" case = true)
    (h2 : caseValidFor "atleast_one" case = true)
    (h3 : caseValidFor "regex_matches" case = true)
    (h4 : caseValidFor "startswith" case = true)
    (h5 : caseValidFor "sum" case = true)
    (h6 : caseValidFor "unique" case = true)
    (h7 : caseValidFor "date_order" case = true)
    (h8 : caseValidFor "dependent" case = true) :
    (∃ b, ruleCallIsValidFor m ⟨oid, "no_more_than_one", xb, case⟩ tree = .ok (.bool b))
    ∧ (∃ b, ruleCallIsValidFor m ⟨oid, "atleast_one", xb, case⟩ tree = .ok (.bool b))
    ∧ (ruleCallIsValidFor m ⟨oid, "regex_matches", xb, case⟩ tree = .error .typeError
       ∨ ∃ out, ruleCallIsValidFor m ⟨oid, "regex_matches", xb, case⟩ tree = .ok out)
    ∧ ruleCallIsValidFor m ⟨oid, "regex_no_matches", xb, case⟩ tree = .ok (.bool true)
    ∧ (rule_init oid "date_order" xb case = .ok ⟨oid, "date_order", xb, case⟩
       ∧ ruleCallIsValidFor m ⟨oid, "date_order", xb, case⟩ tree = .error .attributeError)
    ∧ (rule_init oid "dependent" xb case = .ok ⟨oid, "dependent", xb, case⟩
       ∧ ruleCallIsValidFor m ⟨oid, "dependent", xb, case⟩ tree = .error .attributeError)
    ∧ (rule_init oid "startswith" xb case = .ok ⟨oid, "startswith", xb, case⟩
       ∧ ruleCallIsValidFor m ⟨oid, "startswith", xb, case⟩ tree = .error .typeError)
    ∧ (rule_init oid "sum" xb case = .ok ⟨oid, "sum", xb, case⟩
       ∧ ruleCallIsValidFor m ⟨oid, "sum", xb, case⟩ tree = .error .typeError)
    ∧ (rule_init oid "unique" xb case = .ok ⟨oid, "unique", xb, case⟩
       ∧ ruleCallIsValidFor m ⟨oid, "unique", xb, case⟩ tree = .error .typeError) := by
  obtain ⟨p, rest, hp⟩ := caseValid_paths_cons "no_more_than_one" case (.inl rfl) h1
  obtain ⟨p2, rest2, hp2⟩ := caseValid_paths_cons "atleast_one" case (.inr rfl) h2
  obtain ⟨⟨l, hl⟩, ⟨r, hr⟩⟩ := caseValid_regex_fields case h3
  refine ⟨⟨_, nmto_eval m oid xb p rest case tree hp⟩,
    ⟨_, alo_eval m oid xb p2 rest2 case tree hp2⟩, ?_, by simp [ruleCallIsValidFor],
    ⟨?_, by simp [ruleCallIsValidFor]⟩, ⟨?_, by simp [ruleCallIsValidFor]⟩,
    ⟨?_, by simp [ruleCallIsValidFor]⟩, ⟨?_, by simp [ruleCallIsValidFor]⟩,
    ⟨?_, by simp [ruleCallIsValidFor]⟩⟩
  · rw [regex_matches_eval m oid xb r case tree l hl hr]
    exact regex_loop_ok_or_typeError m r xb tree l
  · simp [rule_init, VALID_RULE_TYPES, h7]
  · simp [rule_init, VALID_RULE_TYPES, h8]
  · simp [rule_init, VALID_RULE_TYPES, h4]
  · simp [rule_init, VALID_RULE_TYPES, h5]
  · simp [rule_init, VALID_RULE_TYPES, h6]

/-- A case acceptable to every rule type's validation at once. -/
def c3case : RawJson :=
  .obj [("paths", .arr [.str "x"]), ("regex", .str "[A-Z]+"),
        ("start", .str "AA" ), ("sum", .num 100)]

/-- A small document for exercising claim C3. -/
def c3tree : XTree := .mk "doc" Option.none [.mk "x" (some "hello") []]

/-- C3 amended witness: the amended theorem applied at a concrete case valid
for every rule type, extracting literal outcomes for two of the variants. -/
theorem C3_is_valid_for_amended_witness :
    ruleCallIsValidFor (fun _ _ => true) ⟨0, "regex_no_matches", "doc", c3case⟩ c3tree
      = .ok (.bool true)
    ∧ ruleCallIsValidFor (fun _ _ => true) ⟨0, "startswith", "doc", c3case⟩ c3tree
      = .error .typeError := by
  have h := C3_is_valid_for_amended (fun _ _ => true) 0 "doc" c3case c3tree
    rfl rfl rfl rfl rfl rfl rfl rfl
  exact ⟨h.2.2.2.1, h.2.2.2.2.2.2.1.2⟩

/-- C3 counterexample: a successfully constructed startswith rule, cited by
the claim itself, raises TypeError on every evaluation call because its
is_valid_for method takes no tree argument, contradicting the claim that
evaluation never raises and returns a boolean for every well-formed rule. -/
theorem C3_counterexample :
    rule_init 0 "startswith" "doc" c3case = .ok ⟨0, "startswith", "doc", c3case⟩
    ∧ ruleCallIsValidFor (fun _ _ => true) ⟨0, "startswith", "doc", c3case⟩ c3tree
        = .error .typeError :=
  ⟨rfl, rfl⟩

/-! ### Claim C1: duplicate JSON keys abort Ruleset construction -/

/-- Bind on an error propagates the error unchanged. -/
theorem ebind_error {α β : Type} (e : PyErr) (f : α → Except PyErr β) :
    (Except.error e >>= f) = Except.error e := rfl

/-- Bind on a success applies the continuation. -/
theorem ebind_ok {α β : Type} (a : α) (f : α → Except PyErr β) :
    (Except.ok a >>= f) = f a := rfl

mutual
/-- Every error the hooked parse can raise is the duplicate-key error. -/
theorem json_loads_err_dup : ∀ (j : RawJson) (e : PyErr),
    json_loads j = .error e → e = .duplicateKeyError
  | .null, e, h => by simp [json_loads] at h
  | .jbool b, e, h => by simp [json_loads] at h
  | .num n, e, h => by simp [json_loads] at h
  | .str s, e, h => by simp [json_loads] at h
  | .arr items, e, h => by
    rw [json_loads] at h
    cases hl : loadsList items with
    | error e' =>
      rw [hl, ebind_error] at h
      injection h with h2
      rw [← h2]
      exact loadsList_err_dup items e' hl
    | ok l =>
      rw [hl, ebind_ok] at h
      simp at h
  | .obj pairs, e, h => by
    rw [json_loads] at h
    cases hp : loadsPairs pairs with
    | error e' =>
      rw [hp, ebind_error] at h
      injection h with h2
      rw [← h2]
      exact loadsPairs_err_dup pairs e' hp
    | ok ps =>
      rw [hp, ebind_ok] at h
      unfold dict_raise_on_duplicates at h
      by_cases hd : dupNames (objKeys ps) = true
      · rw [if_pos hd] at h
        injection h with h2
        exact h2.symm
      · rw [if_neg hd] at h
        simp at h
/-- Array elements can only raise the duplicate-key error during parsing. -/
theorem loadsList_err_dup : ∀ (xs : List RawJson) (e : PyErr),
    loadsList xs = .error e → e = .duplicateKeyError
  | [], e, h => by simp [loadsList] at h
  | x :: tl, e, h => by
    rw [loadsList] at h
    cases hx : json_loads x with
    | error e' =>
      rw [hx, ebind_error] at h
      injection h with h2
      rw [← h2]
      exact json_loads_err_dup x e' hx
    | ok v =>
      rw [hx, ebind_ok] at h
      cases ht : loadsList tl with
      | error e' =>
        rw [ht, ebind_error] at h
        injection h with h2
        rw [← h2]
        exact loadsList_err_dup tl e' ht
      | ok l =>
        rw [ht, ebind_ok] at h
        simp at h
/-- Object members can only raise the duplicate-key error during parsing. -/
theorem loadsPairs_err_dup : ∀ (pairs : List (String × RawJson)) (e : PyErr),
    loadsPairs pairs = .error e → e = .duplicateKeyError
  | [], e, h => by simp [loadsPairs] at h
  | (k, v) :: tl, e, h => by
    rw [loadsPairs] at h
    cases hv : json_loads v with
    | error e' =>
      rw [hv, ebind_error] at h
      injection h with h2
      rw [← h2]
      exact json_loads_err_dup v e' hv
    | ok w =>
      rw [hv, ebind_ok] at h
      cases ht : loadsPairs tl with
      | error e' =>
        rw [ht, ebind_error] at h
        injection h with h2
        rw [← h2]
        exact loadsPairs_err_dup tl e' ht
      | ok l =>
        rw [ht, ebind_ok] at h
        simp at h
end

/-- A successful parse of an object's members preserves its key list. -/
theorem loadsPairs_ok_keys : ∀ (pairs out : List (String × RawJson)),
    loadsPairs pairs = .ok out → objKeys out = objKeys pairs
  | [], out, h => by
    rw [loadsPairs] at h
    injection h with h2
    subst h2
    rfl
  | (k, v) :: tl, out, h => by
    rw [loadsPairs] at h
    cases hv : json_loads v with
    | error e =>
      rw [hv, ebind_error] at h
      exact absurd h (by simp)
    | ok v' =>
      rw [hv, ebind_ok] at h
      cases ht : loadsPairs tl with
      | error e =>
        rw [ht, ebind_error] at h
        exact absurd h (by simp)
      | ok tl' =>
        rw [ht, ebind_ok] at h
        injection h with h2
        subst h2
        have := loadsPairs_ok_keys tl tl' ht
        simp only [objKeys, List.map] at this ⊢
        rw [this]

mutual
/-- A document with a duplicate key at any nesting level fails the hooked
parse with the duplicate-key error. -/
theorem json_loads_dup : ∀ (j : RawJson), jsonHasDupKey j = true →
    json_loads j = .error .duplicateKeyError
  | .null, h => by simp [jsonHasDupKey] at h
  | .jbool b, h => by simp [jsonHasDupKey] at h
  | .num n, h => by simp [jsonHasDupKey] at h
  | .str s, h => by simp [jsonHasDupKey] at h
  | .arr items, h => by
    have h' : listHasDupKey items = true := by simpa [jsonHasDupKey] using h
    rw [json_loads, loadsList_dup items h', ebind_error]
  | .obj pairs, h => by
    have h' : (dupNames (objKeys pairs) || pairsHasDupKey pairs) = true := by
      simpa [jsonHasDupKey] using h
    by_cases hpd : pairsHasDupKey pairs = true
    · rw [json_loads, loadsPairs_dup pairs hpd, ebind_error]
    · have h'' : dupNames (objKeys pairs) = true ∨ pairsHasDupKey pairs = true := by
        simpa using h'
      have hd : dupNames (objKeys pairs) = true := by
        rcases h'' with h1 | h1
        · exact h1
        · exact absurd h1 hpd
      rw [json_loads]
      cases hp : loadsPairs pairs with
      | error e =>
        rw [ebind_error, loadsPairs_err_dup pairs e hp]
      | ok ps =>
        rw [ebind_ok]
        unfold dict_raise_on_duplicates
        rw [loadsPairs_ok_keys pairs ps hp, if_pos hd]
/-- An array containing an object with a duplicate key fails the parse. -/
theorem loadsList_dup : ∀ (xs : List RawJson), listHasDupKey xs = true →
    loadsList xs = .error .duplicateKeyError
  | [], h => by simp [listHasDupKey] at h
  | x :: tl, h => by
    have h' : (jsonHasDupKey x || listHasDupKey tl) = true := by
      simpa [listHasDupKey] using h
    by_cases hx : jsonHasDupKey x = true
    · rw [loadsList, json_loads_dup x hx, ebind_error]
    · have h'' : jsonHasDupKey x = true ∨ listHasDupKey tl = true := by
        simpa using h'
      have htl : listHasDupKey tl = true := by
        rcases h'' with h1 | h1
        · exact absurd h1 hx
        · exact h1
      rw [loadsList]
      cases hv : json_loads x with
      | error e =>
        rw [ebind_error, json_loads_err_dup x e hv]
      | ok v =>
        rw [ebind_ok, loadsList_dup tl htl, ebind_error]
/-- An object member containing a duplicate key fails the parse. -/
theorem loadsPairs_dup : ∀ (pairs : List (String × RawJson)),
    pairsHasDupKey pairs = true → loadsPairs pairs = .error .duplicateKeyError
  | [], h => by simp [pairsHasDupKey] at h
  | (k, v) :: tl, h => by
    have h' : (jsonHasDupKey v || pairsHasDupKey tl) = true := by
      simpa [pairsHasDupKey] using h
    by_cases hv : jsonHasDupKey v = true
    · rw [loadsPairs, json_loads_dup v hv, ebind_error]
    · have h'' : jsonHasDupKey v = true ∨ pairsHasDupKey tl = true := by
        simpa using h'
      have htl : pairsHasDupKey tl = true := by
        rcases h'' with h1 | h1
        · exact absurd h1 hv
        · exact h1
      rw [loadsPairs]
      cases hw : json_loads v with
      | error e =>
        rw [ebind_error, json_loads_err_dup v e hw]
      | ok w =>
        rw [ebind_ok, loadsPairs_dup tl htl, ebind_error]
end

/-- C1: a ruleset document in which some JSON object carries two keys with
the same name at the same nesting level always fails Ruleset construction
with the duplicate-key error, whatever else the document contains, because
the hooked parse runs before any schema validation. -/
theorem C1_duplicate_key_fails_construction (raw : RawJson)
    (h : jsonHasDupKey raw = true) :
    ruleset_init raw = .error .duplicateKeyError := by
  unfold ruleset_init
  rw [json_loads_dup raw h, ebind_error]

/-- A ruleset document with a nested duplicate key. -/
def c1raw : RawJson := .obj [("x", .obj [("a", .num 1), ("a", .num 2)])]

/-- C1 witness: the theorem applied at a document with a duplicate key one
level down. -/
theorem C1_duplicate_key_fails_construction_witness :
    jsonHasDupKey c1raw = true ∧ ruleset_init c1raw = .error .duplicateKeyError :=
  ⟨rfl, C1_duplicate_key_fails_construction c1raw rfl⟩

/-! ### Claim C2: Rule equality and the rules set -/

/-- A successful Rule construction hands back exactly the object built from
its arguments. -/
theorem rule_init_ok_shape (oid : Nat) (name xb : String) (case : RawJson)
    (r : RuleObj) (h : rule_init oid name xb case = .ok r) :
    r = ⟨oid, name, xb, case⟩ := by
  unfold rule_init at h
  split at h
  · exact absurd h (by simp)
  · split at h
    · injection h with h3
      exact h3.symm
    · exact absurd h (by simp)

/-- Adding a freshly created Rule object to the rules set always appends it:
no existing element can share its identity. -/
theorem pySetAdd_fresh (s : List RuleObj) (r : RuleObj)
    (h : ∀ x ∈ s, x.oid < r.oid) : pySetAdd s r = s ++ [r] := by
  cases hb : (s.any fun x => pyRuleEq x r) with
  | false => simp [pySetAdd, hb]
  | true =>
    obtain ⟨x, hx, hpx⟩ := List.any_eq_true.mp hb
    have hxe : x.oid = r.oid := by simpa [pyRuleEq] using hpx
    have := h x hx
    omega

/-- The inner case loop adds exactly one rule per case: object identities are
always fresh, so the set add never deduplicates. -/
theorem cases_loop_count (xb rt : String) :
    ∀ (cs : List RawJson) (st st' : Nat × List RuleObj),
      (∀ x ∈ st.2, x.oid < st.1) → cases_loop xb rt cs st = .ok st' →
      st'.2.length = st.2.length + cs.length ∧ st'.1 = st.1 + cs.length
      ∧ (∀ x ∈ st'.2, x.oid < st'.1)
  | [], st, st', hinv, h => by
    rw [cases_loop] at h
    injection h with h2
    subst h2
    exact ⟨by simp, by simp, hinv⟩
  | c :: rest, st, st', hinv, h => by
    rw [cases_loop] at h
    cases hc : locate_constructor_for_rule_type rt with
    | error e => rw [hc, ebind_error] at h; exact absurd h (by simp)
    | ok ctor =>
      rw [hc, ebind_ok] at h
      cases hr : rule_init st.1 ctor xb c with
      | error e => rw [hr, ebind_error] at h; exact absurd h (by simp)
      | ok r =>
        rw [hr, ebind_ok] at h
        have hshape := rule_init_ok_shape st.1 ctor xb c r hr
        have hoid : r.oid = st.1 := by rw [hshape]
        have hfresh : ∀ x ∈ st.2, x.oid < r.oid := by rw [hoid]; exact hinv
        have hadd := pySetAdd_fresh st.2 r hfresh
        have hinv' : ∀ x ∈ (st.1 + 1, pySetAdd st.2 r).2,
            x.oid < (st.1 + 1, pySetAdd st.2 r).1 := by
          intro x hx
          rw [hadd] at hx
          rcases List.mem_append.mp hx with hx1 | hx1
          · have := hinv x hx1
            simp only []
            omega
          · have hxr : x = r := by simpa using hx1
            subst hxr
            simp only []
            omega
        obtain ⟨hl, hn, hi⟩ := cases_loop_count xb rt rest _ st' hinv' h
        refine ⟨?_, ?_, hi⟩
        · rw [hl, hadd]
          simp
          omega
        · rw [hn]
          simp
          omega

/-- The middle loop adds exactly the section's case count. -/
theorem rtypes_loop_count (xb : String) :
    ∀ (rps : List (String × RawJson)) (st st' : Nat × List RuleObj),
      (∀ x ∈ st.2, x.oid < st.1) → rtypes_loop xb rps st = .ok st' →
      st'.2.length = st.2.length + sectionCount rps
      ∧ st'.1 = st.1 + sectionCount rps
      ∧ (∀ x ∈ st'.2, x.oid < st'.1)
  | [], st, st', hinv, h => by
    rw [rtypes_loop] at h
    injection h with h2
    subst h2
    exact ⟨by simp [sectionCount], by simp [sectionCount], hinv⟩
  | (rt, v) :: rest, st, st', hinv, h => by
    rw [rtypes_loop] at h
    cases hc : getCasesList v with
    | error e => rw [hc, ebind_error] at h; exact absurd h (by simp)
    | ok cs =>
      rw [hc, ebind_ok] at h
      cases hcl : cases_loop xb rt cs st with
      | error e => rw [hcl, ebind_error] at h; exact absurd h (by simp)
      | ok st1 =>
        rw [hcl, ebind_ok] at h
        obtain ⟨l1, n1, i1⟩ := cases_loop_count xb rt cs st st1 hinv hcl
        obtain ⟨l2, n2, i2⟩ := rtypes_loop_count xb rest st1 st' i1 h
        refine ⟨?_, ?_, i2⟩
        · rw [l2, l1]
          simp [sectionCount, entryCount, hc]
          omega
        · rw [n2, n1]
          simp [sectionCount, entryCount, hc]
          omega

/-- The outer loop adds exactly the document's total case count. -/
theorem xb_loop_count :
    ∀ (ps : List (String × RawJson)) (st st' : Nat × List RuleObj),
      (∀ x ∈ st.2, x.oid < st.1) → xb_loop ps st = .ok st' →
      st'.2.length = st.2.length + (ps.map (fun kv => sectionValCount kv.2)).sum
      ∧ st'.1 = st.1 + (ps.map (fun kv => sectionValCount kv.2)).sum
      ∧ (∀ x ∈ st'.2, x.oid < st'.1)
  | [], st, st', hinv, h => by
    rw [xb_loop] at h
    injection h with h2
    subst h2
    exact ⟨by simp, by simp, hinv⟩
  | (xb, rv) :: rest, st, st', hinv, h => by
    cases rv with
    | obj rps =>
      rw [xb_loop] at h
      cases hrt : rtypes_loop xb rps st with
      | error e => rw [hrt, ebind_error] at h; exact absurd h (by simp)
      | ok st1 =>
        rw [hrt, ebind_ok] at h
        obtain ⟨l1, n1, i1⟩ := rtypes_loop_count xb rps st st1 hinv hrt
        obtain ⟨l2, n2, i2⟩ := xb_loop_count rest st1 st' i1 h
        refine ⟨?_, ?_, i2⟩
        · rw [l2, l1]
          simp [sectionValCount]
          omega
        · rw [n2, n1]
          simp [sectionValCount]
          omega
    | null =>
      rw [xb_loop] at h
      · exact absurd h (by simp)
      · simp
    | jbool b =>
      rw [xb_loop] at h
      · exact absurd h (by simp)
      · simp
    | num n =>
      rw [xb_loop] at h
      · exact absurd h (by simp)
      · simp
    | str s =>
      rw [xb_loop] at h
      · exact absurd h (by simp)
      · simp
    | arr a =>
      rw [xb_loop] at h
      · exact absurd h (by simp)
      · simp

/-- C2 (amended): Rule defines neither value equality nor hashing, so the
rules set deduplicates by object identity only; every successfully
constructed Ruleset therefore holds exactly one Rule per case entry of its
definition, whether or not any two case entries are byte-for-byte equal. -/
theorem C2_rules_count_amended (raw : RawJson) (rs : Ruleset)
    (h : ruleset_init raw = .ok rs) :
    rs.rules.length = countCases rs.ruleset := by
  unfold ruleset_init at h
  cases hp : json_loads raw with
  | error e => rw [hp, ebind_error] at h; exact absurd h (by simp)
  | ok parsed =>
    rw [hp, ebind_ok] at h
    cases hv : validate_ruleset parsed with
    | error e => rw [hv, ebind_error] at h; exact absurd h (by simp)
    | ok u =>
      rw [hv, ebind_ok] at h
      cases hs : set_rules parsed with
      | error e => rw [hs, ebind_error] at h; exact absurd h (by simp)
      | ok rules =>
        rw [hs, ebind_ok] at h
        injection h with h2
        subst h2
        cases parsed with
        | obj ps =>
          simp only [set_rules] at hs
          cases hx : xb_loop ps (0, []) with
          | error e => rw [hx] at hs; simp [Except.map] at hs
          | ok st' =>
            rw [hx] at hs
            have hrules : st'.2 = rules := by simpa [Except.map] using hs
            obtain ⟨hl, _, _⟩ := xb_loop_count ps (0, []) st' (by intro x hx0; simp at hx0) hx
            show rules.length = countCases (.obj ps)
            rw [← hrules, hl]
            simp [countCases]
        | null => simp [set_rules] at hs
        | jbool b => simp [set_rules] at hs
        | num n => simp [set_rules] at hs
        | str s => simp [set_rules] at hs
        | arr a => simp [set_rules] at hs

/-- One atleast_one case over the sector path. -/
def c2case : RawJson := .obj [("paths", .arr [.str "sector"])]

/-- A ruleset whose single rule-type entry holds two byte-for-byte identical
cases. -/
def c2raw : RawJson :=
  .obj [("//iati-activity", .obj [("atleast_one", .obj [("cases",
    .arr [c2case, c2case])])])]

/-- The Ruleset that construction from `c2raw` produces: two distinct Rule
objects with identical type, xpath_base and case content. -/
def c2rs : Ruleset :=
  ⟨c2raw, [⟨0, "atleast_one", "//iati-activity", c2case⟩,
           ⟨1, "atleast_one", "//iati-activity", c2case⟩]⟩

/-- C2 counterexample: a ruleset with two byte-for-byte identical cases
constructs a rules set of size two, not one, because Rule instances compare
by object identity. -/
theorem C2_counterexample :
    (ruleset_init c2raw).map (fun rs => rs.rules.length) = .ok 2 ∧ (2 : Nat) ≠ 1 :=
  ⟨rfl, by decide⟩

/-- C2 amended witness: the amended theorem applied to the concrete
construction from the two-identical-case ruleset. -/
theorem C2_rules_count_amended_witness :
    c2rs.rules.length = countCases c2rs.ruleset :=
  C2_rules_count_amended c2raw c2rs rfl

/-! ### Claim C4: unrecognized rule-type names -/

/-- The case loop of an unrecognized rule type raises KeyError as soon as it
has a case to construct: the constructor lookup comes first in the loop body. -/
theorem cases_loop_unknown (xb rt : String) (c : RawJson) (cs : List RawJson)
    (st : Nat × List RuleObj) (h : VALID_RULE_TYPES.contains rt = false) :
    cases_loop xb rt (c :: cs) st = .error .keyError := by
  have hloc : locate_constructor_for_rule_type rt = .error .keyError := by
    unfold locate_constructor_for_rule_type
    rw [h]
    rfl
  rw [cases_loop, hloc, ebind_error]

/-- The case loop of a recognized rule type with valid cases always returns. -/
theorem cases_loop_ok_of_valid (xb rt : String) :
    ∀ (cs : List RawJson) (st : Nat × List RuleObj),
      VALID_RULE_TYPES.contains rt = true →
      (∀ c ∈ cs, caseValidFor rt c = true) →
      ∃ st', cases_loop xb rt cs st = .ok st'
  | [], st, _, _ => ⟨st, by rw [cases_loop]⟩
  | c :: rest, st, hk, hv => by
    have hloc : locate_constructor_for_rule_type rt = .ok rt := by
      unfold locate_constructor_for_rule_type
      rw [hk]
      rfl
    have hri : rule_init st.1 rt xb c = .ok ⟨st.1, rt, xb, c⟩ := by
      unfold rule_init
      rw [hk, hv c (by simp)]
      rfl
    obtain ⟨st', hst'⟩ := cases_loop_ok_of_valid xb rt rest
      (st.1 + 1, pySetAdd st.2 ⟨st.1, rt, xb, c⟩) hk
      (fun c' hc' => hv c' (by simp [hc']))
    exact ⟨st', by rw [cases_loop, hloc, ebind_ok, hri, ebind_ok, hst']⟩

/-- Destructuring of a doomed entry: its name is unrecognized and its cases
list is nonempty. -/
theorem entryUnknown_dest (rt : String) (v : RawJson)
    (h : entryHasUnknownCase rt v = true) :
    VALID_RULE_TYPES.contains rt = false ∧ ∃ c cs, getCasesList v = .ok (c :: cs) := by
  unfold entryHasUnknownCase at h
  cases hk : VALID_RULE_TYPES.contains rt with
  | true => rw [hk] at h; simp at h
  | false =>
    rw [hk] at h
    simp only [Bool.not_false, Bool.true_and] at h
    refine ⟨rfl, ?_⟩
    cases hc : getCasesList v with
    | error e => rw [hc] at h; simp at h
    | ok cs =>
      rw [hc] at h
      cases cs with
      | nil => simp at h
      | cons c cs' => exact ⟨c, cs', rfl⟩

/-- Destructuring of a clean recognized entry: all its cases are valid. -/
theorem entryKnownValid_dest (rt : String) (v : RawJson) (cs : List RawJson)
    (hk : VALID_RULE_TYPES.contains rt = true)
    (hc : getCasesList v = .ok cs)
    (h : entryKnownValid rt v = true) :
    ∀ c ∈ cs, caseValidFor rt c = true := by
  unfold entryKnownValid at h
  rw [hk, hc] at h
  simp only [Bool.not_true, Bool.false_or] at h
  intro c hcm
  exact List.all_eq_true.mp h c hcm

/-- A structurally valid entry has an extractable cases list. -/
theorem rtypeEntryOk_getCases (v : RawJson) (h : rtypeEntryOk v = true) :
    ∃ cs, getCasesList v = .ok cs := by
  cases v with
  | obj ps =>
    simp only [rtypeEntryOk] at h
    cases hl : objLookup ps "cases" with
    | none => rw [hl] at h; simp at h
    | some w =>
      rw [hl] at h
      cases w with
      | arr cs => exact ⟨cs, by simp [getCasesList, hl]⟩
      | null => simp at h
      | jbool b => simp at h
      | num n => simp at h
      | str s => simp at h
      | obj o => simp at h
  | null => simp [rtypeEntryOk] at h
  | jbool b => simp [rtypeEntryOk] at h
  | num n => simp [rtypeEntryOk] at h
  | str s => simp [rtypeEntryOk] at h
  | arr a => simp [rtypeEntryOk] at h

/-- A doomed section never lets the middle loop return a value. -/
theorem rtypes_loop_unknown_not_ok (xb : String) :
    ∀ (rps : List (String × RawJson)) (st st' : Nat × List RuleObj),
      sectionHasUnknown rps = true → rtypes_loop xb rps st ≠ .ok st'
  | [], st, st', h => by simp [sectionHasUnknown] at h
  | (rt, v) :: rest, st, st', h => by
    intro hok
    rw [rtypes_loop] at hok
    by_cases he : entryHasUnknownCase rt v = true
    · obtain ⟨hk, c, cs', hc⟩ := entryUnknown_dest rt v he
      rw [hc, ebind_ok] at hok
      rw [cases_loop_unknown xb rt c cs' st hk, ebind_error] at hok
      exact absurd hok (by simp)
    · have hrest : sectionHasUnknown rest = true := by
        have h' : entryHasUnknownCase rt v = true ∨ sectionHasUnknown rest = true := by
          simpa [sectionHasUnknown] using h
        rcases h' with h1 | h1
        · exact absurd h1 he
        · exact h1
      cases hc : getCasesList v with
      | error e => rw [hc, ebind_error] at hok; exact absurd hok (by simp)
      | ok cs =>
        rw [hc, ebind_ok] at hok
        cases hcl : cases_loop xb rt cs st with
        | error e => rw [hcl, ebind_error] at hok; exact absurd hok (by simp)
        | ok st1 =>
          rw [hcl, ebind_ok] at hok
          exact rtypes_loop_unknown_not_ok xb rest st1 st' hrest hok

/-- A structurally valid, clean section always lets the middle loop return. -/
theorem rtypes_loop_ok_of_clean (xb : String) :
    ∀ (rps : List (String × RawJson)) (st : Nat × List RuleObj),
      sectionStructOk rps = true → sectionKnownValid rps = true →
      sectionHasUnknown rps = false →
      ∃ st', rtypes_loop xb rps st = .ok st'
  | [], st, _, _, _ => ⟨st, by rw [rtypes_loop]⟩
  | (rt, v) :: rest, st, hstr, hval, hun => by
    have hstr' : rtypeEntryOk v = true
        ∧ ∀ (a : String) (b : RawJson), (a, b) ∈ rest → rtypeEntryOk b = true := by
      simpa [sectionStructOk] using hstr
    have hstr1 := hstr'.1
    have hstr2 : sectionStructOk rest = true := by
      simp [sectionStructOk]
      exact fun a b hab => hstr'.2 a b hab
    have hval' : entryKnownValid rt v = true
        ∧ ∀ (a : String) (b : RawJson), (a, b) ∈ rest → entryKnownValid a b = true := by
      simpa [sectionKnownValid] using hval
    have hval1 := hval'.1
    have hval2 : sectionKnownValid rest = true := by
      simp [sectionKnownValid]
      exact fun a b hab => hval'.2 a b hab
    have hun1 : entryHasUnknownCase rt v = false := by
      cases hcur : entryHasUnknownCase rt v with
      | false => rfl
      | true =>
        exfalso
        have : sectionHasUnknown ((rt, v) :: rest) = true := by
          simp [sectionHasUnknown, hcur]
        rw [this] at hun
        exact absurd hun (by simp)
    have hun2 : sectionHasUnknown rest = false := by
      cases hcur : sectionHasUnknown rest with
      | false => rfl
      | true =>
        exfalso
        have : sectionHasUnknown ((rt, v) :: rest) = true := by
          simp [sectionHasUnknown]
          right
          simpa [sectionHasUnknown] using hcur
        rw [this] at hun
        exact absurd hun (by simp)
    obtain ⟨cs, hc⟩ := rtypeEntryOk_getCases v hstr1
    by_cases hk : VALID_RULE_TYPES.contains rt = true
    · have hall := entryKnownValid_dest rt v cs hk hc hval1
      obtain ⟨st1, hst1⟩ := cases_loop_ok_of_valid xb rt cs st hk hall
      obtain ⟨st', hst'⟩ := rtypes_loop_ok_of_clean xb rest st1 hstr2 hval2 hun2
      exact ⟨st', by rw [rtypes_loop, hc, ebind_ok, hst1, ebind_ok, hst']⟩
    · have hk' : VALID_RULE_TYPES.contains rt = false := by
        cases hkk : VALID_RULE_TYPES.contains rt with
        | false => rfl
        | true => exact absurd hkk hk
      have hcs : cs = [] := by
        cases cs with
        | nil => rfl
        | cons c cs' =>
          exfalso
          have : entryHasUnknownCase rt v = true := by
            unfold entryHasUnknownCase
            rw [hk', hc]
            rfl
          rw [this] at hun1
          exact absurd hun1 (by simp)
      subst hcs
      obtain ⟨st', hst'⟩ := rtypes_loop_ok_of_clean xb rest st hstr2 hval2 hun2
      refine ⟨st', ?_⟩
      rw [rtypes_loop, hc, ebind_ok]
      rw [show cases_loop xb rt [] st = .ok st from by rw [cases_loop]]
      rw [ebind_ok, hst']

/-- A structurally valid, clean section ending at a doomed entry raises
KeyError from the middle loop. -/
theorem rtypes_loop_unknown_keyError (xb : String) :
    ∀ (rps : List (String × RawJson)) (st : Nat × List RuleObj),
      sectionStructOk rps = true → sectionKnownValid rps = true →
      sectionHasUnknown rps = true →
      rtypes_loop xb rps st = .error .keyError
  | [], st, _, _, h => by simp [sectionHasUnknown] at h
  | (rt, v) :: rest, st, hstr, hval, h => by
    have hstr' : rtypeEntryOk v = true
        ∧ ∀ (a : String) (b : RawJson), (a, b) ∈ rest → rtypeEntryOk b = true := by
      simpa [sectionStructOk] using hstr
    have hstr1 := hstr'.1
    have hstr2 : sectionStructOk rest = true := by
      simp [sectionStructOk]
      exact fun a b hab => hstr'.2 a b hab
    have hval' : entryKnownValid rt v = true
        ∧ ∀ (a : String) (b : RawJson), (a, b) ∈ rest → entryKnownValid a b = true := by
      simpa [sectionKnownValid] using hval
    have hval1 := hval'.1
    have hval2 : sectionKnownValid rest = true := by
      simp [sectionKnownValid]
      exact fun a b hab => hval'.2 a b hab
    by_cases he : entryHasUnknownCase rt v = true
    · obtain ⟨hk, c, cs', hc⟩ := entryUnknown_dest rt v he
      rw [rtypes_loop, hc, ebind_ok]
      rw [cases_loop_unknown xb rt c cs' st hk, ebind_error]
    · have hrest : sectionHasUnknown rest = true := by
        have h' : entryHasUnknownCase rt v = true ∨ sectionHasUnknown rest = true := by
          simpa [sectionHasUnknown] using h
        rcases h' with h1 | h1
        · exact absurd h1 he
        · exact h1
      obtain ⟨cs, hc⟩ := rtypeEntryOk_getCases v hstr1
      by_cases hk : VALID_RULE_TYPES.contains rt = true
      · have hall := entryKnownValid_dest rt v cs hk hc hval1
        obtain ⟨st1, hst1⟩ := cases_loop_ok_of_valid xb rt cs st hk hall
        rw [rtypes_loop, hc, ebind_ok, hst1, ebind_ok]
        exact rtypes_loop_unknown_keyError xb rest st1 hstr2 hval2 hrest
      · have hk' : VALID_RULE_TYPES.contains rt = false := by
          cases hkk : VALID_RULE_TYPES.contains rt with
          | false => rfl
          | true => exact absurd hkk hk
        have hcs : cs = [] := by
          cases cs with
          | nil => rfl
          | cons c cs' =>
            exfalso
            apply he
            unfold entryHasUnknownCase
            rw [hk', hc]
            rfl
        subst hcs
        rw [rtypes_loop, hc, ebind_ok]
        rw [show cases_loop xb rt [] st = .ok st from by rw [cases_loop]]
        rw [ebind_ok]
        exact rtypes_loop_unknown_keyError xb rest st hstr2 hval2 hrest

/-- A document with a doomed entry never lets the outer loop return a value. -/
theorem xb_loop_unknown_not_ok :
    ∀ (ps : List (String × RawJson)) (st st' : Nat × List RuleObj),
      ps.any (fun kv => sectionValHasUnknown kv.2) = true →
      xb_loop ps st ≠ .ok st'
  | [], st, st', h => by simp at h
  | (xb, rv) :: rest, st, st', h => by
    intro hok
    cases rv with
    | obj rps =>
      rw [xb_loop] at hok
      by_cases hu : sectionHasUnknown rps = true
      · cases hrt : rtypes_loop xb rps st with
        | error e => rw [hrt, ebind_error] at hok; exact absurd hok (by simp)
        | ok st1 => exact absurd hrt (rtypes_loop_unknown_not_ok xb rps st st1 hu)
      · have hrest : rest.any (fun kv => sectionValHasUnknown kv.2) = true := by
          have h' : sectionHasUnknown rps = true
              ∨ rest.any (fun kv => sectionValHasUnknown kv.2) = true := by
            simpa [sectionValHasUnknown] using h
          rcases h' with h1 | h1
          · exact absurd h1 hu
          · exact h1
        cases hrt : rtypes_loop xb rps st with
        | error e => rw [hrt, ebind_error] at hok; exact absurd hok (by simp)
        | ok st1 =>
          rw [hrt, ebind_ok] at hok
          exact xb_loop_unknown_not_ok rest st1 st' hrest hok
    | null =>
      rw [xb_loop] at hok
      · exact absurd hok (by simp)
      · simp
    | jbool b =>
      rw [xb_loop] at hok
      · exact absurd hok (by simp)
      · simp
    | num n =>
      rw [xb_loop] at hok
      · exact absurd hok (by simp)
      · simp
    | str s =>
      rw [xb_loop] at hok
      · exact absurd hok (by simp)
      · simp
    | arr a =>
      rw [xb_loop] at hok
      · exact absurd hok (by simp)
      · simp

/-- A structurally valid, clean document with a doomed entry raises KeyError
from the outer loop. -/
theorem xb_loop_unknown_keyError :
    ∀ (ps : List (String × RawJson)) (st : Nat × List RuleObj),
      ps.all (fun kv => sectionValStructOk kv.2) = true →
      ps.all (fun kv => sectionValKnownValid kv.2) = true →
      ps.any (fun kv => sectionValHasUnknown kv.2) = true →
      xb_loop ps st = .error .keyError
  | [], st, _, _, h => by simp at h
  | (xb, rv) :: rest, st, hstr, hval, hun => by
    have hstr' : sectionValStructOk rv = true
        ∧ ∀ (a : String) (b : RawJson), (a, b) ∈ rest → sectionValStructOk b = true := by
      simpa using hstr
    have hstr1 := hstr'.1
    have hstr2 : rest.all (fun kv => sectionValStructOk kv.2) = true := by
      simp
      exact fun a b hab => hstr'.2 a b hab
    have hval' : sectionValKnownValid rv = true
        ∧ ∀ (a : String) (b : RawJson), (a, b) ∈ rest → sectionValKnownValid b = true := by
      simpa using hval
    have hval1 := hval'.1
    have hval2 : rest.all (fun kv => sectionValKnownValid kv.2) = true := by
      simp
      exact fun a b hab => hval'.2 a b hab
    cases rv with
    | obj rps =>
      simp only [sectionValStructOk] at hstr1
      simp only [sectionValKnownValid] at hval1
      by_cases hu : sectionHasUnknown rps = true
      · rw [xb_loop]
        rw [rtypes_loop_unknown_keyError xb rps st hstr1 hval1 hu, ebind_error]
      · have hu' : sectionHasUnknown rps = false := by
          cases hcc : sectionHasUnknown rps with
          | false => rfl
          | true => exact absurd hcc hu
        have hrest : rest.any (fun kv => sectionValHasUnknown kv.2) = true := by
          have h' : sectionHasUnknown rps = true
              ∨ rest.any (fun kv => sectionValHasUnknown kv.2) = true := by
            simpa [sectionValHasUnknown] using hun
          rcases h' with h1 | h1
          · exact absurd h1 hu
          · exact h1
        obtain ⟨st1, hst1⟩ := rtypes_loop_ok_of_clean xb rps st hstr1 hval1 hu'
        rw [xb_loop, hst1, ebind_ok]
        exact xb_loop_unknown_keyError rest st1 hstr2 hval2 hrest
    | null => simp [sectionValStructOk] at hstr1
    | jbool b => simp [sectionValStructOk] at hstr1
    | num n => simp [sectionValStructOk] at hstr1
    | str s => simp [sectionValStructOk] at hstr1
    | arr a => simp [sectionValStructOk] at hstr1

/-- C4 (amended): a schema-accepted ruleset definition in which some
unrecognized rule-type name has a nonempty cases list never produces a
Ruleset; when every recognized entry's cases are valid configurations the
failure is exactly the KeyError of the constructor lookup. An unrecognized
rule-type name whose cases list is empty is silently skipped instead, because
the constructor lookup only happens per case. -/
theorem C4_unknown_rule_type_amended (raw parsed : RawJson)
    (hl : json_loads raw = .ok parsed)
    (hv : rulesetStructOk parsed = true)
    (hu : hasUnknownRuleType parsed = true) :
    (∀ rs, ruleset_init raw ≠ .ok rs)
    ∧ (knownCasesValid parsed = true → ruleset_init raw = .error .keyError) := by
  have hval : validate_ruleset parsed = .ok () := by
    unfold validate_ruleset
    rw [hv]
    rfl
  constructor
  · intro rs hok
    unfold ruleset_init at hok
    rw [hl, ebind_ok, hval, ebind_ok] at hok
    cases parsed with
    | obj ps =>
      simp only [hasUnknownRuleType] at hu
      cases hs : set_rules (.obj ps) with
      | error e => rw [hs, ebind_error] at hok; exact absurd hok (by simp)
      | ok rules =>
        simp only [set_rules] at hs
        cases hx : xb_loop ps (0, []) with
        | error e => rw [hx] at hs; simp [Except.map] at hs
        | ok st' => exact absurd hx (xb_loop_unknown_not_ok ps (0, []) st' hu)
    | null => simp [rulesetStructOk] at hv
    | jbool b => simp [rulesetStructOk] at hv
    | num n => simp [rulesetStructOk] at hv
    | str s => simp [rulesetStructOk] at hv
    | arr a => simp [rulesetStructOk] at hv
  · intro hk
    unfold ruleset_init
    rw [hl, ebind_ok, hval, ebind_ok]
    cases parsed with
    | obj ps =>
      simp only [hasUnknownRuleType] at hu
      simp only [rulesetStructOk] at hv
      simp only [knownCasesValid] at hk
      have hs : set_rules (.obj ps) = .error .keyError := by
        simp only [set_rules]
        rw [xb_loop_unknown_keyError ps (0, []) hv hk hu]
        rfl
      rw [hs, ebind_error]
    | null => simp [rulesetStructOk] at hv
    | jbool b => simp [rulesetStructOk] at hv
    | num n => simp [rulesetStructOk] at hv
    | str s => simp [rulesetStructOk] at hv
    | arr a => simp [rulesetStructOk] at hv

/-- A ruleset whose only rule-type name is unrecognized and has no cases. -/
def c4raw : RawJson :=
  .obj [("//iati-activity", .obj [("bogus_type", .obj [("cases", .arr [])])])]

/-- C4 counterexample: a schema-accepted ruleset containing an unrecognized
rule-type name still constructs successfully when that entry's cases list is
empty, because the constructor lookup is only reached per case; the claim
says any unrecognized name fails construction. -/
theorem C4_counterexample :
    VALID_RULE_TYPES.contains "bogus_type" = false
    ∧ rulesetStructOk c4raw = true
    ∧ ruleset_init c4raw = .ok ⟨c4raw, []⟩ :=
  ⟨rfl, rfl, rfl⟩

/-- A ruleset mixing one valid atleast_one entry with a doomed unrecognized
entry carrying one case. -/
def c4raw2 : RawJson :=
  .obj [("//iati-activity", .obj [
    ("atleast_one", .obj [("cases", .arr [.obj [("paths", .arr [.str "sector"])]])]),
    ("bogus_type", .obj [("cases", .arr [.obj []])])])]

/-- C4 amended witness: the amended theorem applied at the doomed ruleset;
construction fails as a whole with KeyError and retains nothing. -/
theorem C4_unknown_rule_type_amended_witness :
    ruleset_init c4raw2 = .error .keyError :=
  (C4_unknown_rule_type_amended c4raw2 c4raw2 rfl rfl rfl).2 rfl

/-! ### Claim C9: the computed required list of a schema subsection -/

/-- Setting then reading a key on an object's pairs yields the set value. -/
theorem objLookup_objSetPairs_self (ps : List (String × RawJson)) (k : String)
    (v : RawJson) : objLookup (objSetPairs ps k v) k = some v := by
  induction ps with
  | nil => simp [objSetPairs, objLookup]
  | cons hd tl ih =>
    obtain ⟨k', v'⟩ := hd
    cases hk : (k' == k) with
    | true => simp [objSetPairs, hk, objLookup]
    | false => simp [objSetPairs, hk, objLookup, ih]

/-- C9: for every meta-schema document and every rule type whose subsection
lookup succeeds with a properties object, the computed schema section is that
subsection with its required member set to exactly the declared property keys
other than condition, and reading required back yields precisely that list. -/
theorem C9_required_is_props_minus_condition (schema g : RawJson) (name : String)
    (pp : List (String × RawJson))
    (hg : schemaItemsSection schema name = .ok g)
    (hpp : pyGetItem g "properties" = .ok (.obj pp)) :
    ruleset_schema_section schema name =
      .ok (objSetItem g "required"
        (.arr (((objKeys pp).filter (fun k => k != "condition")).map RawJson.str)))
    ∧ pyGetItem
        (objSetItem g "required"
          (.arr (((objKeys pp).filter (fun k => k != "condition")).map RawJson.str)))
        "required"
      = .ok (.arr (((objKeys pp).filter (fun k => k != "condition")).map RawJson.str)) := by
  constructor
  · unfold ruleset_schema_section
    rw [hg, ebind_ok, hpp, ebind_ok]
  · cases g with
    | obj gs =>
      unfold objSetItem pyGetItem
      simp [objLookup_objSetPairs_self]
    | null => simp [pyGetItem] at hpp
    | jbool b => simp [pyGetItem] at hpp
    | num n => simp [pyGetItem] at hpp
    | str s => simp [pyGetItem] at hpp
    | arr a => simp [pyGetItem] at hpp

/-- The case items subsection of the witness meta-schema: two declared
properties, paths and condition. -/
def c9g : RawJson :=
  .obj [("properties", .obj [("paths", .obj []), ("condition", .obj [])])]

/-- A small meta-schema document holding `c9g` under the subscript chain for
the atleast_one rule type. -/
def c9schema : RawJson :=
  .obj [("patternProperties", .obj [(".+", .obj [("properties", .obj [
    ("atleast_one", .obj [("properties", .obj [("cases", .obj [("items", c9g)])])])])])])]

/-- C9 witness: the theorem applied at the concrete meta-schema; the computed
required list is exactly the paths key, condition being excluded. -/
theorem C9_required_is_props_minus_condition_witness :
    ruleset_schema_section c9schema "atleast_one" =
      .ok (.obj [("properties", .obj [("paths", .obj []), ("condition", .obj [])]),
                 ("required", .arr [.str "paths"])]) := by
  have h := C9_required_is_props_minus_condition c9schema c9g "atleast_one"
    [("paths", .obj []), ("condition", .obj [])] rfl rfl
  rw [h.1]
  rfl

end PyIati
